import Mathlib

/-!
Shallow embedding of the Order aggregate and the TotalOrders projection
from src/order.rs of get-eventually/eventually-app-example.

Modelling conventions:
- Rust timestamps (chrono DateTime of Utc) are carried opaquely as Int; the
  code never computes with them, it only stores and copies them.
- u8 quantities are Nat values below 256; the unchecked u8 addition in
  insert_or_merge is modelled as addition modulo 256 (release-build wrapping).
- f32 prices are carried opaquely as Nat bit patterns; the code never
  computes with a price, it only stores and copies it.
- u64 projection counters are modelled as Nat with each increment taken
  modulo 2 ^ 64 (release-build wrapping of the += 1).
- Rust Result is Except; the uninhabited error type std convert Infallible
  of the projection is the empty inductive Infallible below.
- The wall-clock reads in handle_first and handle_next (Utc::now) are made
  an explicit argument now.
-/

abbrev DateTime := Int

structure OrderItem where
  item_sku : String
  quantity : Nat
  price : Nat
deriving DecidableEq, Repr

/-- VecExt::insert_or_merge from src/order.rs: the first line item whose SKU
equals the SKU of the inserted item has its quantity incremented (u8 wrapping
addition); if no line matches, the item is pushed at the end. -/
def insert_or_merge : List OrderItem → OrderItem → List OrderItem
  | [], item => [item]
  | it :: rest, item =>
    if item.item_sku = it.item_sku then
      { it with quantity := (it.quantity + item.quantity) % 256 } :: rest
    else
      it :: insert_or_merge rest item

inductive OrderState where
  | Editable (updated_at : DateTime)
  | Complete (t : DateTime)
  | Cancelled (t : DateTime)
deriving DecidableEq, Repr

def OrderState.isEditable : OrderState → Bool
  | .Editable _ => true
  | _ => false

def OrderState.isComplete : OrderState → Bool
  | .Complete _ => true
  | _ => false

def OrderState.isCancelled : OrderState → Bool
  | .Cancelled _ => true
  | _ => false

structure Order where
  id : String
  created_at : DateTime
  items : List OrderItem
  state : OrderState
deriving DecidableEq, Repr

/-- Order::is_editable from src/order.rs. -/
def Order.is_editable (o : Order) : Bool :=
  o.state.isEditable

inductive OrderCommand where
  | Create
  | AddItem (item : OrderItem)
  | Complete
  | Cancel
deriving DecidableEq, Repr

inductive OrderEvent where
  | Created (id : String) (t : DateTime)
  | ItemAdded (item : OrderItem) (t : DateTime)
  | Completed (t : DateTime)
  | Cancelled (t : DateTime)
deriving DecidableEq, Repr

inductive OrderError where
  | AlreadyCreated
  | NotYetCreated
  | NotEditable
  | AlreadyCompleted
  | AlreadyCancelled
deriving DecidableEq, Repr

/-- The human-readable messages attached to OrderError by the thiserror
derive attributes in src/order.rs, transcribed verbatim. -/
def OrderError.message : OrderError → String
  | .AlreadyCreated => "order has already been created"
  | .NotYetCreated => "order has not been created yet"
  | .NotEditable => "order can\x27t be edited anymore"
  | .AlreadyCompleted => "order has already been cancelled"
  | .AlreadyCancelled => "order has already been completed"

/-- OrderAggregate::apply_first from src/order.rs. -/
def apply_first : OrderEvent → Except OrderError Order
  | .Created id t =>
      .ok { id := id, created_at := t, items := [], state := .Editable t }
  | _ => .error .NotYetCreated

/-- OrderAggregate::apply_next from src/order.rs. -/
def apply_next (state : Order) : OrderEvent → Except OrderError Order
  | .Created _ _ => .error .AlreadyCreated
  | .ItemAdded item t =>
      match state.state with
      | .Editable _ =>
          .ok { state with
                  state := .Editable t,
                  items := insert_or_merge state.items item }
      | _ => .error .NotEditable
  | .Completed t =>
      match state.state with
      | .Complete _ => .error .AlreadyCompleted
      | .Editable _ => .ok { state with state := .Complete t }
      | _ => .error .NotEditable
  | .Cancelled t =>
      match state.state with
      | .Cancelled _ => .error .AlreadyCancelled
      | .Editable _ => .ok { state with state := .Cancelled t }
      | _ => .error .NotEditable

/-- OrderAggregate::handle_first from src/order.rs, with the Utc::now read
passed in as the argument now. -/
def handle_first (id : String) (command : OrderCommand) (now : DateTime) :
    Except OrderError (List OrderEvent) :=
  match command with
  | .Create => .ok [.Created id now]
  | _ => .error .NotYetCreated

/-- OrderAggregate::handle_next from src/order.rs, with the Utc::now read
passed in as the argument now.  The id and state arguments are unused by the
source exactly as here. -/
def handle_next (_id : String) (_state : Order) (command : OrderCommand)
    (now : DateTime) : Except OrderError (List OrderEvent) :=
  match command with
  | .Create => .error .AlreadyCreated
  | .AddItem item => .ok [.ItemAdded item now]
  | .Complete => .ok [.Completed now]
  | .Cancel => .ok [.Cancelled now]

/-- std convert Infallible: the uninhabited error type of the projection. -/
inductive Infallible
deriving DecidableEq

structure TotalOrdersProjection where
  created : Nat
  completed : Nat
  cancelled : Nat
deriving DecidableEq, Repr

/-- The Default derive for TotalOrdersProjection: all counters zero. -/
def TotalOrdersProjection.default : TotalOrdersProjection :=
  { created := 0, completed := 0, cancelled := 0 }

/-- TotalOrdersProjection::project from src/order.rs.  The Persisted wrapper
only carries the event (event.take()), so the model takes the event
directly.  The source always resolves to Ok. -/
def project (p : TotalOrdersProjection) :
    OrderEvent → Except Infallible TotalOrdersProjection
  | .Created _ _ => .ok { p with created := (p.created + 1) % 2 ^ 64 }
  | .Completed _ => .ok { p with completed := (p.completed + 1) % 2 ^ 64 }
  | .Cancelled _ => .ok { p with cancelled := (p.cancelled + 1) % 2 ^ 64 }
  | .ItemAdded _ _ => .ok p

/-- Folding a stream of events through the projection, propagating the
(impossible) error. -/
def project_fold (p : TotalOrdersProjection) :
    List OrderEvent → Except Infallible TotalOrdersProjection
  | [] => .ok p
  | e :: es =>
      match project p e with
      | .ok q => project_fold q es
      | .error err => .error err

/-- The replay algorithm of the spec, folding events after the first one
with apply_next and aborting at the first error. -/
def fold_next (s : Order) : List OrderEvent → Except OrderError Order
  | [] => .ok s
  | e :: es =>
      match apply_next s e with
      | .ok s2 => fold_next s2 es
      | .error err => .error err

/-- Replay of a non-empty event sequence: apply_first on the head, then
apply_next on each subsequent event in order. -/
def replay (e : OrderEvent) (es : List OrderEvent) : Except OrderError Order :=
  match apply_first e with
  | .ok s => fold_next s es
  | .error err => .error err

/-- A state is reachable when some event sequence replays to it. -/
def Reachable (s : Order) : Prop :=
  ∃ e es, replay e es = .ok s

deriving instance DecidableEq for Except

/-- Helper: insert_or_merge on a list whose first SKU match is the item it,
with l1 the non-matching prefix, merges into it in place (u8 wrapping sum)
and leaves every other line and the order of lines unchanged. -/
theorem insert_or_merge_found (l1 l2 : List OrderItem) (it item : OrderItem)
    (hfirst : ∀ x ∈ l1, x.item_sku ≠ item.item_sku)
    (hsku : item.item_sku = it.item_sku) :
    insert_or_merge (l1 ++ it :: l2) item
      = l1 ++ { it with quantity := (it.quantity + item.quantity) % 256 } :: l2 := by
  induction l1 with
  | nil => simp [insert_or_merge, hsku]
  | cons x xs ih =>
      have hx : ¬ (item.item_sku = x.item_sku) :=
        fun hh => (hfirst x (by simp)) hh.symm
      simp only [List.cons_append, insert_or_merge, if_neg hx]
      exact congrArg (x :: ·) (ih fun y hy => hfirst y (by simp [hy]))

/-- C1: every state reachable by apply_first followed by successful
apply_next steps is in exactly one of the lifecycle states Editable,
Complete, Cancelled; and once the state is Complete or Cancelled,
apply_next returns an error for every event, so no successful transition
leaves Complete or Cancelled. -/
theorem lifecycle_exclusivity_and_absorption (s : Order) (h : Reachable s) :
    ((s.state.isEditable).toNat + (s.state.isComplete).toNat
        + (s.state.isCancelled).toNat = 1)
    ∧ (s.state.isComplete = true ∨ s.state.isCancelled = true →
        ∀ e : OrderEvent, ∃ err : OrderError, apply_next s e = .error err) := by
  refine ⟨?_, ?_⟩
  · rcases s with ⟨id, c, items, st⟩
    cases st <;> rfl
  · intro habs e
    rcases s with ⟨id, c, items, st⟩
    cases st with
    | Editable u => simp [OrderState.isComplete, OrderState.isCancelled] at habs
    | Complete u => cases e <;> exact ⟨_, rfl⟩
    | Cancelled u => cases e <;> exact ⟨_, rfl⟩

/-- C1 witness: a concrete order reached by Created then Completed is
absorbing for a concrete Cancelled event. -/
theorem lifecycle_exclusivity_and_absorption_witness :
    ∃ err : OrderError,
      apply_next ⟨"x", 0, [], .Complete 1⟩ (.Cancelled 2) = .error err :=
  (lifecycle_exclusivity_and_absorption ⟨"x", 0, [], .Complete 1⟩
      ⟨.Created "x" 0, [.Completed 1], rfl⟩).2 (Or.inl rfl) (.Cancelled 2)

/-- C2 counterexample: merging quantities 200 and 100 under the same SKU
yields quantity 44 (u8 wrapping addition), not the arithmetic sum 300, so
the merged quantity is not always incremented by the new quantity. -/
theorem duplicate_sku_merge_counterexample :
    apply_next ⟨"o", 0, [⟨"A", 200, 0⟩], .Editable 0⟩ (.ItemAdded ⟨"A", 100, 0⟩ 1)
      = .ok ⟨"o", 0, [⟨"A", 44, 0⟩], .Editable 1⟩
    ∧ apply_next ⟨"o", 0, [⟨"A", 200, 0⟩], .Editable 0⟩ (.ItemAdded ⟨"A", 100, 0⟩ 1)
      ≠ .ok ⟨"o", 0, [⟨"A", 200 + 100, 0⟩], .Editable 1⟩ :=
  ⟨rfl, by decide⟩

/-- C2 (amended): an ItemAdded event whose SKU equals the SKU of an
existing line merges into the first matching line, whose quantity becomes
the sum modulo 256 (u8 wrapping addition, equal to the arithmetic sum
whenever that sum is at most 255); all other lines are unchanged, their
order is preserved, the merged line keeps its position, and the rest of
the order is untouched except the Editable timestamp.  Adding quantities
2 then 3 of SKU A to a fresh order yields one line with quantity 5. -/
theorem duplicate_sku_merge (o : Order) (l1 l2 : List OrderItem)
    (it item : OrderItem) (t u : DateTime)
    (hstate : o.state = .Editable u)
    (hitems : o.items = l1 ++ it :: l2)
    (hfirst : ∀ x ∈ l1, x.item_sku ≠ item.item_sku)
    (hsku : item.item_sku = it.item_sku) :
    apply_next o (.ItemAdded item t)
      = .ok ⟨o.id, o.created_at,
          l1 ++ { it with quantity := (it.quantity + item.quantity) % 256 } :: l2,
          .Editable t⟩
    ∧ replay (.Created "o" 0) [.ItemAdded ⟨"A", 2, 5⟩ 1, .ItemAdded ⟨"A", 3, 6⟩ 2]
      = .ok ⟨"o", 0, [⟨"A", 5, 5⟩], .Editable 2⟩ := by
  refine ⟨?_, rfl⟩
  rcases o with ⟨id, c, items, st⟩
  dsimp at hstate hitems
  subst hstate hitems
  simp [apply_next, insert_or_merge_found l1 l2 it item hfirst hsku]

/-- C2 witness: a concrete three-line order merges a duplicate SKU in
place, middle position kept, neighbours untouched. -/
theorem duplicate_sku_merge_witness :
    apply_next ⟨"w", 0, [⟨"B", 1, 2⟩, ⟨"A", 200, 3⟩, ⟨"C", 4, 5⟩], .Editable 0⟩
      (.ItemAdded ⟨"A", 100, 9⟩ 7)
      = .ok ⟨"w", 0, [⟨"B", 1, 2⟩, ⟨"A", 44, 3⟩, ⟨"C", 4, 5⟩], .Editable 7⟩ :=
  (duplicate_sku_merge
      ⟨"w", 0, [⟨"B", 1, 2⟩, ⟨"A", 200, 3⟩, ⟨"C", 4, 5⟩], .Editable 0⟩
      [⟨"B", 1, 2⟩] [⟨"C", 4, 5⟩] ⟨"A", 200, 3⟩ ⟨"A", 100, 9⟩ 7 0
      rfl rfl (by decide) rfl).1

/-- C3: in an already Complete state, a Completed event fails with
AlreadyCompleted and a Cancelled event with NotEditable; in an already
Cancelled state, a Cancelled event fails with AlreadyCancelled and a
Completed event with NotEditable.  Concretely, after Create then Complete,
a second Complete fails with AlreadyCompleted and a Cancel fails with
NotEditable. -/
theorem absorbed_state_error_taxonomy (s : Order) (t : DateTime) :
    (s.state.isComplete = true →
        apply_next s (.Completed t) = .error .AlreadyCompleted
        ∧ apply_next s (.Cancelled t) = .error .NotEditable)
    ∧ (s.state.isCancelled = true →
        apply_next s (.Cancelled t) = .error .AlreadyCancelled
        ∧ apply_next s (.Completed t) = .error .NotEditable)
    ∧ replay (.Created "o" 0) [.Completed 1] = .ok ⟨"o", 0, [], .Complete 1⟩
    ∧ apply_next ⟨"o", 0, [], .Complete 1⟩ (.Completed 2) = .error .AlreadyCompleted
    ∧ apply_next ⟨"o", 0, [], .Complete 1⟩ (.Cancelled 3) = .error .NotEditable := by
  refine ⟨?_, ?_, rfl, rfl, rfl⟩
  · intro hc
    rcases s with ⟨id, c, items, st⟩
    cases st with
    | Editable u => simp [OrderState.isComplete] at hc
    | Complete u => exact ⟨rfl, rfl⟩
    | Cancelled u => simp [OrderState.isComplete] at hc
  · intro hc
    rcases s with ⟨id, c, items, st⟩
    cases st with
    | Editable u => simp [OrderState.isCancelled] at hc
    | Complete u => simp [OrderState.isCancelled] at hc
    | Cancelled u => exact ⟨rfl, rfl⟩

/-- C3 witness: completing a concrete cancelled order fails with
NotEditable. -/
theorem absorbed_state_error_taxonomy_witness :
    apply_next ⟨"z", 0, [], .Cancelled 1⟩ (.Completed 4) = .error .NotEditable :=
  ((absorbed_state_error_taxonomy ⟨"z", 0, [], .Cancelled 1⟩ 4).2.1 rfl).2

/-- C4: apply_first accepts exactly the Created event, producing the
initial order with the given id, creation time, empty items and Editable
state stamped with the creation time; every other event kind fails with
NotYetCreated. -/
theorem apply_first_accepts_only_created :
    (∀ id t, apply_first (.Created id t) = .ok ⟨id, t, [], .Editable t⟩)
    ∧ (∀ item t, apply_first (.ItemAdded item t) = .error .NotYetCreated)
    ∧ (∀ t, apply_first (.Completed t) = .error .NotYetCreated)
    ∧ (∀ t, apply_first (.Cancelled t) = .error .NotYetCreated) :=
  ⟨fun _ _ => rfl, fun _ _ => rfl, fun _ => rfl, fun _ => rfl⟩

/-- C5: handle_next maps commands one to one: Create always fails with
AlreadyCreated, AddItem yields exactly one ItemAdded event carrying the
item, Complete yields exactly one Completed event, Cancel yields exactly
one Cancelled event; the returned list never holds more than one event and
the result never depends on the state argument. -/
theorem handle_next_maps_commands (id : String) (s : Order) (now : DateTime) :
    handle_next id s .Create now = .error .AlreadyCreated
    ∧ (∀ item, handle_next id s (.AddItem item) now = .ok [.ItemAdded item now])
    ∧ handle_next id s .Complete now = .ok [.Completed now]
    ∧ handle_next id s .Cancel now = .ok [.Cancelled now]
    ∧ (∀ c evs, handle_next id s c now = .ok evs → evs.length ≤ 1)
    ∧ (∀ c s2, handle_next id s c now = handle_next id s2 c now) := by
  refine ⟨rfl, fun _ => rfl, rfl, rfl, ?_, ?_⟩
  · intro c evs h
    cases c <;> simp [handle_next] at h <;> simp [← h]
  · intro c s2
    cases c <;> rfl

/-- C5 witness: concrete instance of the Create rejection and of the
one-event bound. -/
theorem handle_next_maps_commands_witness :
    handle_next "x" ⟨"x", 0, [], .Editable 0⟩ .Create 5 = .error .AlreadyCreated
    ∧ ([OrderEvent.Completed (5 : DateTime)]).length ≤ 1 :=
  ⟨(handle_next_maps_commands "x" ⟨"x", 0, [], .Editable 0⟩ 5).1,
   (handle_next_maps_commands "x" ⟨"x", 0, [], .Editable 0⟩ 5).2.2.2.2.1
     .Complete [.Completed 5] rfl⟩

/-- C6: handle_first accepts only the Create command, returning exactly one
Created event carrying the given identity; AddItem, Complete and Cancel all
fail with NotYetCreated, for every identity. -/
theorem handle_first_accepts_only_create :
    (∀ id now, handle_first id .Create now = .ok [.Created id now])
    ∧ (∀ id item now, handle_first id (.AddItem item) now = .error .NotYetCreated)
    ∧ (∀ id now, handle_first id .Complete now = .error .NotYetCreated)
    ∧ (∀ id now, handle_first id .Cancel now = .error .NotYetCreated) :=
  ⟨fun _ _ => rfl, fun _ _ _ => rfl, fun _ _ => rfl, fun _ _ => rfl⟩

/-- C7 counterexample: at a created counter of 2 ^ 64 - 1 the u64 increment
wraps to 0, so project does not increment the created counter by 1 for every
starting counter values. -/
theorem project_counts_events_counterexample :
    project ⟨2 ^ 64 - 1, 0, 0⟩ (.Created "o" 0) = .ok ⟨0, 0, 0⟩
    ∧ (0 : Nat) ≠ (2 ^ 64 - 1) + 1 := by
  refine ⟨by decide, by norm_num⟩

/-- C7 (amended): from any starting counters, project increments exactly the
created counter on Created, exactly the completed counter on Completed and
exactly the cancelled counter on Cancelled, each modulo 2 ^ 64 (the u64
wrapping increment, equal to plus 1 whenever the counter is below
2 ^ 64 - 1), and changes nothing on ItemAdded; it always returns Ok and its
error type Infallible is uninhabited.  Folding Created, Completed, ItemAdded
from the default projection gives counters 1, 1, 0. -/
theorem project_counts_events (p : TotalOrdersProjection) :
    (∀ id t, project p (.Created id t)
        = .ok ⟨(p.created + 1) % 2 ^ 64, p.completed, p.cancelled⟩)
    ∧ (∀ t, project p (.Completed t)
        = .ok ⟨p.created, (p.completed + 1) % 2 ^ 64, p.cancelled⟩)
    ∧ (∀ t, project p (.Cancelled t)
        = .ok ⟨p.created, p.completed, (p.cancelled + 1) % 2 ^ 64⟩)
    ∧ (∀ item t, project p (.ItemAdded item t) = .ok p)
    ∧ (p.created < 2 ^ 64 - 1 → (p.created + 1) % 2 ^ 64 = p.created + 1)
    ∧ (∀ e, ∃ q, project p e = .ok q)
    ∧ IsEmpty Infallible
    ∧ project_fold TotalOrdersProjection.default
        [.Created "o" 0, .Completed 1, .ItemAdded ⟨"A", 1, 0⟩ 2]
      = .ok ⟨1, 1, 0⟩ := by
  refine ⟨fun _ _ => rfl, fun _ => rfl, fun _ => rfl, fun _ _ => rfl, ?_, ?_, ?_, ?_⟩
  · intro hlt
    exact Nat.mod_eq_of_lt (by omega)
  · intro e
    cases e <;> exact ⟨_, rfl⟩
  · exact ⟨fun err => nomatch err⟩
  · rfl

/-- C7 witness: a concrete small counter really increments by exactly 1. -/
theorem project_counts_events_witness :
    project ⟨5, 0, 0⟩ (.Created "o" 0) = .ok ⟨(5 + 1) % 2 ^ 64, 0, 0⟩
    ∧ (5 + 1) % 2 ^ 64 = 5 + 1 :=
  ⟨(project_counts_events ⟨5, 0, 0⟩).1 "o" 0,
   (project_counts_events ⟨5, 0, 0⟩).2.2.2.2.1 (by norm_num)⟩

/-- Helper: folding further events over an already failed replay keeps the
same error. -/
theorem foldl_bind_error (err : OrderError) (es : List OrderEvent) :
    es.foldl (fun (acc : Except OrderError Order) ev => acc.bind fun st => apply_next st ev)
        (Except.error err)
      = .error err := by
  induction es with
  | nil => rfl
  | cons e es ih => exact ih

/-- Helper: the recursive fold of apply_next agrees with a left fold with
monadic bind over the event list. -/
theorem fold_next_eq_foldl (s : Order) (es : List OrderEvent) :
    fold_next s es
      = es.foldl (fun (acc : Except OrderError Order) ev => acc.bind fun st => apply_next st ev)
          (Except.ok s) := by
  induction es generalizing s with
  | nil => rfl
  | cons e es ih =>
      show (match apply_next s e with
            | .ok s2 => fold_next s2 es
            | .error err => .error err)
          = es.foldl _ ((Except.ok s).bind fun st => apply_next st e)
      cases h : apply_next s e with
      | ok s2 =>
          simp only [Except.bind, h]
          exact ih s2
      | error err =>
          simp only [Except.bind, h]
          exact (foldl_bind_error err es).symm

/-- C8: replay is deterministic: replaying the same event sequence twice
gives identical results (the same error or identical states), and replay is
exactly the pure left fold of apply_next with bind over the sequence after
apply_first, so it is a function of the event sequence alone. -/
theorem replay_deterministic (e : OrderEvent) (es : List OrderEvent) :
    replay e es = replay e es
    ∧ replay e es
      = es.foldl (fun (acc : Except OrderError Order) ev => acc.bind fun st => apply_next st ev)
          (apply_first e) := by
  refine ⟨rfl, ?_⟩
  unfold replay
  cases h : apply_first e with
  | ok s => exact fold_next_eq_foldl s es
  | error err => exact (foldl_bind_error err es).symm

/-- C9: the display messages of AlreadyCompleted and AlreadyCancelled are
swapped relative to their variant names, while the variants themselves are
returned as the scenarios describe: AlreadyCompleted carries the cancelled
message and AlreadyCancelled the completed message. -/
theorem error_messages_swapped :
    OrderError.message .AlreadyCompleted = "order has already been cancelled"
    ∧ OrderError.message .AlreadyCancelled = "order has already been completed"
    ∧ OrderError.message .AlreadyCompleted ≠ OrderError.message .AlreadyCancelled
    ∧ apply_next ⟨"o", 0, [], .Complete 1⟩ (.Completed 2) = .error .AlreadyCompleted
    ∧ apply_next ⟨"o", 0, [], .Cancelled 1⟩ (.Cancelled 2) = .error .AlreadyCancelled :=
  ⟨rfl, rfl, by decide, rfl, rfl⟩

/-- C10: merging two same-SKU items adds their u8 quantities modulo 256:
the merged quantity equals the arithmetic sum exactly when that sum is at
most 255, and for sums above 255 it wraps and differs from the sum. -/
theorem quantity_merge_wraps (a b : Nat) (ha : a < 256) (hb : b < 256)
    (sku : String) (p q : Nat) :
    insert_or_merge [⟨sku, a, p⟩] ⟨sku, b, q⟩ = [⟨sku, (a + b) % 256, p⟩]
    ∧ ((a + b) % 256 = a + b ↔ a + b ≤ 255)
    ∧ (255 < a + b → (a + b) % 256 ≠ a + b) := by
  refine ⟨by simp [insert_or_merge], ?_, ?_⟩
  · constructor
    · intro h
      have h2 : (a + b) % 256 < 256 := Nat.mod_lt _ (by omega)
      omega
    · intro h
      exact Nat.mod_eq_of_lt (by omega)
  · intro h hne
    have h2 : (a + b) % 256 < 256 := Nat.mod_lt _ (by omega)
    omega

/-- C10 witness: quantities 200 and 100 of the same SKU merge to 44, which
differs from the arithmetic sum 300. -/
theorem quantity_merge_wraps_witness :
    insert_or_merge [⟨"A", 200, 0⟩] ⟨"A", 100, 0⟩ = [⟨"A", (200 + 100) % 256, 0⟩]
    ∧ (200 + 100) % 256 ≠ 200 + 100 :=
  ⟨(quantity_merge_wraps 200 100 (by omega) (by omega) "A" 0 0).1,
   (quantity_merge_wraps 200 100 (by omega) (by omega) "A" 0 0).2.2 (by omega)⟩
